import Mathlib

/-!
Shallow embedding of `rastertericoh.c`, a CUPS raster filter that converts
raster pages to Ricoh GDI output (PJL envelope + JBIG payload).

Modelling conventions:
* Bytes are `Nat` (the C code only compares and bit-manipulates them).
* A pixel line read from the raster source is a `List Nat`; a failed
  (short) read is `none`.
* Heap allocation success is an explicit boolean oracle: `calloc`/`malloc`
  outcomes are parameters, and each JBIG emit callback carries the outcome
  of the `realloc` it would perform if growth is needed.
* `stdout` is modelled as a list of output tokens (`OutTok`): the job
  header block, a per-page header block, the raw payload bytes, the
  per-page footer block and the job trailer block.
-/

namespace RicohFilter

/-- CUPS colour-space tag `CUPS_CSPACE_W` (white-based, 0=black). -/
def CUPS_CSPACE_W : Nat := 0

/-- CUPS colour-space tag `CUPS_CSPACE_K` (black-based, 0=white). -/
def CUPS_CSPACE_K : Nat := 3

/-- CUPS colour-space tag `CUPS_CSPACE_SW` (sRGB white-based). -/
def CUPS_CSPACE_SW : Nat := 18

/-- The fields of `cups_page_header2_t` that `rastertericoh.c` reads. -/
structure PageHeader where
  cupsWidth : Nat
  cupsHeight : Nat
  cupsBytesPerLine : Nat
  cupsBitsPerPixel : Nat
  cupsColorSpace : Nat
  cupsPageSizeName : Option String
  hwResolution : Nat
  mediaPosition : Nat
deriving DecidableEq

/-- PBM row stride: `(width + 7) / 8`, from `raster_to_pbm`. -/
def pbm_stride (width : Nat) : Nat := (width + 7) / 8

/-- A row that was never filled: `calloc` zero-initialises the bitmap. -/
def zeroRow (width : Nat) : List Nat := List.replicate (pbm_stride width) 0

/-- The 8-bit threshold classification of `raster_to_pbm`:
`black = line[x] < 128` for the W/SW colour spaces, else
`black = line[x] >= 128`. -/
def isBlackCls (cs v : Nat) : Bool :=
  if cs = CUPS_CSPACE_W ∨ cs = CUPS_CSPACE_SW then v < 128 else 128 ≤ v

/-- One iteration of the 8-bpp packing loop:
`if (black) dst[x / 8] |= (0x80 >> (x % 8));`. -/
def pack8Step (cs : Nat) (line : List Nat) (dst : List Nat) (x : Nat) : List Nat :=
  if isBlackCls cs (line.getD x 0) then
    dst.set (x / 8) ((dst.getD (x / 8) 0) ||| (0x80 >>> (x % 8)))
  else dst

/-- The 8-bpp branch of `raster_to_pbm` for one row: `memset(dst, 0, stride)`
followed by the packing loop over `x = 0 .. width-1`. -/
def pack8Row (cs width : Nat) (line : List Nat) : List Nat :=
  (List.range width).foldl (pack8Step cs line) (List.replicate (pbm_stride width) 0)

/-- Line-buffer indices the 1-bpp branch reads: `memcpy(dst, line, pbm_stride)`
reads `line[0 .. pbm_stride-1]` regardless of `cupsBytesPerLine`. -/
def line_read_idx_1bpp (width : Nat) : List Nat := List.range (pbm_stride width)

/-- The 1-bpp branch of `raster_to_pbm` for one row: a raw copy of the first
`pbm_stride` bytes of the line buffer. -/
def row1bpp (width : Nat) (line : List Nat) : List Nat :=
  (line_read_idx_1bpp width).map (fun i => line.getD i 0)

/-- Line-buffer indices the unsupported-bpp branch reads:
`memcpy(dst, line, pbm_stride < bpl ? pbm_stride : bpl)`. -/
def line_read_idx_fallback (width bpl : Nat) : List Nat :=
  List.range (min (pbm_stride width) bpl)

/-- The unsupported-bpp branch of `raster_to_pbm` for one row: copy
`min(pbm_stride, bpl)` bytes; the rest of the row keeps its `calloc` zeros. -/
def rowFallback (width bpl : Nat) (line : List Nat) : List Nat :=
  (line_read_idx_fallback width bpl).map (fun i => line.getD i 0)
    ++ List.replicate (pbm_stride width - min (pbm_stride width) bpl) 0

/-- Per-row dispatch of `raster_to_pbm` on `cupsBitsPerPixel`. -/
def convRow (hdr : PageHeader) (line : List Nat) : List Nat :=
  if hdr.cupsBitsPerPixel = 1 then row1bpp hdr.cupsWidth line
  else if hdr.cupsBitsPerPixel = 8 then pack8Row hdr.cupsColorSpace hdr.cupsWidth line
  else rowFallback hdr.cupsWidth hdr.cupsBytesPerLine line

/-- The row loop of `raster_to_pbm`: convert each successfully read line; a
short read (`none`, or an exhausted source) breaks out of the loop, leaving
every remaining row at its `calloc` zeros. -/
def buildRows (hdr : PageHeader) : Nat → List (Option (List Nat)) → List (List Nat)
  | 0, _ => []
  | Nat.succ h, [] => List.replicate (Nat.succ h) (zeroRow hdr.cupsWidth)
  | Nat.succ h, none :: _ => List.replicate (Nat.succ h) (zeroRow hdr.cupsWidth)
  | Nat.succ h, some l :: rest => convRow hdr l :: buildRows hdr h rest

/-- `raster_to_pbm`: returns `none` exactly when allocation fails; otherwise
the converted bitmap (a short read does NOT make it return `none`). -/
def raster_to_pbm (allocOk : Bool) (hdr : PageHeader)
    (lines : List (Option (List Nat))) : Option (List (List Nat)) :=
  if allocOk then some (buildRows hdr hdr.cupsHeight lines) else none

/-- The `jbig_buffer_t` of the C code; `size` is `data.length`. -/
structure JbigBuffer where
  data : List Nat
  capacity : Nat
deriving DecidableEq

/-- `jbig_data_cb`: grow the buffer if the chunk does not fit (doubling, or
need + 65536 when doubling is insufficient); on `realloc` failure return with
the buffer unchanged (the chunk is not copied); otherwise append the chunk. -/
def jbig_data_cb (reallocOk : Bool) (buf : JbigBuffer) (chunk : List Nat) :
    JbigBuffer :=
  if buf.capacity < buf.data.length + chunk.length then
    let newCap :=
      if buf.capacity * 2 < buf.data.length + chunk.length then
        buf.data.length + chunk.length + 65536
      else buf.capacity * 2
    if reallocOk then { data := buf.data ++ chunk, capacity := newCap }
    else buf
  else { data := buf.data ++ chunk, capacity := buf.capacity }

/-- The buffer `pbm_to_jbig` hands to the encoder: `buf.capacity = 65536`,
freshly `malloc`ed, empty. -/
def jbigBufInit : JbigBuffer := { data := [], capacity := 65536 }

/-- `pbm_to_jbig`, with the external JBIG encoder abstracted as the list of
emit-callback invocations it performs (each chunk paired with the outcome of
the `realloc` that invocation would need). Returns `none` exactly when the
initial `malloc` fails; otherwise the accumulated buffer contents. -/
def pbm_to_jbig (initAllocOk : Bool) (chunks : List (List Nat × Bool)) :
    Option (List Nat) :=
  if initAllocOk then
    some (chunks.foldl (fun b c => jbig_data_cb c.2 b c.1) jbigBufInit).data
  else none

/-- ASCII lowering of one character, as `strcasecmp` does per byte. -/
def asciiLower (c : Char) : Char :=
  if 65 ≤ c.toNat ∧ c.toNat ≤ 90 then Char.ofNat (c.toNat + 32) else c

/-- Case folding of a whole string for `strcasecmp`. -/
def lowerChars (s : String) : List Char := s.data.map asciiLower

/-- `strcasecmp(a, b) == 0`. -/
def strcaseeq (a b : String) : Bool := lowerChars a == lowerChars b

/-- `cups_to_pjl_paper`: map the CUPS page-size name to the PJL paper name;
`NULL` and every unmatched name map to `"A4"`. -/
def cups_to_pjl_paper : Option String → String
  | none => "A4"
  | some s =>
    if strcaseeq s "A4" then "A4"
    else if strcaseeq s "Letter" then "LETTER"
    else if strcaseeq s "Legal" then "LEGAL"
    else if strcaseeq s "A5" then "A5"
    else if strcaseeq s "A6" then "A6"
    else if strcaseeq s "B5" then "B5"
    else if strcaseeq s "B6" then "B6"
    else if strcaseeq s "Monarch" then "MONARCH"
    else "A4"

/-- The paper table as the spec states it (refinement reference, written from
the spec's table in §4.3): case-insensitive lookup, default `"A4"` for an
absent or unmatched name. -/
def paperTableSpec : Option String → String
  | none => "A4"
  | some s =>
    ((([("a4".data, "A4"), ("letter".data, "LETTER"), ("legal".data, "LEGAL"),
        ("a5".data, "A5"), ("a6".data, "A6"), ("b5".data, "B5"),
        ("b6".data, "B6"), ("monarch".data, "MONARCH")] :
        List (List Char × String)).lookup (lowerChars s)).getD "A4")

/-- One token of the produced output stream. Each constructor stands for a
contiguous run of bytes `main` writes to stdout: the PJL job-header block,
a per-page PJL header block (carrying every variable field it prints), the
raw JBIG payload, the per-page footer block, and the job trailer block. -/
inductive OutTok where
  | jobHdr (timestamp user : String)
  | pageHdr (paper mediasource : String) (width height resolution imagelen : Nat)
  | payload (bytes : List Nat)
  | pageFooter
  | jobTrailer
deriving DecidableEq

/-- Everything one iteration of the page loop consumes: the parsed page
header, the allocation outcome in `raster_to_pbm`, the pixel-line reads, the
initial-allocation outcome in `pbm_to_jbig`, and the encoder's emit-callback
invocations (chunk, realloc outcome). -/
structure PageInput where
  header : PageHeader
  pbmAllocOk : Bool
  lines : List (Option (List Nat))
  jbigInitAllocOk : Bool
  chunks : List (List Nat × Bool)
deriving DecidableEq

/-- `MEDIASOURCE` selection: `MANUALFEED` iff `MediaPosition == 1`. -/
def mediaSourceOf (hdr : PageHeader) : String :=
  if hdr.mediaPosition = 1 then "MANUALFEED" else "TRAY1"

/-- The per-page frame `main` emits: page header lines, raw payload, footer. -/
def pageFrame (hdr : PageHeader) (jbig : List Nat) : List OutTok :=
  [OutTok.pageHdr (cups_to_pjl_paper hdr.cupsPageSizeName) (mediaSourceOf hdr)
     hdr.cupsWidth hdr.cupsHeight hdr.hwResolution jbig.length,
   OutTok.payload jbig, OutTok.pageFooter]

/-- One iteration of `main`'s page loop: skip empty pages, skip on
`raster_to_pbm` failure, skip on `pbm_to_jbig` failure; otherwise emit the
job header when this is the first emitted page, then the page frame, and
increment the page counter. -/
def processPage (ts user : String) (pc : Nat) (p : PageInput) :
    List OutTok × Nat :=
  if p.header.cupsBytesPerLine = 0 ∨ p.header.cupsHeight = 0 then ([], pc)
  else
    match raster_to_pbm p.pbmAllocOk p.header p.lines with
    | none => ([], pc)
    | some _ =>
      match pbm_to_jbig p.jbigInitAllocOk p.chunks with
      | none => ([], pc)
      | some jbig =>
        ((if pc = 0 then [OutTok.jobHdr ts user] else []) ++ pageFrame p.header jbig,
         pc + 1)

/-- The page loop of `main`, threading the page counter. -/
def runPages (ts user : String) : Nat → List PageInput → List OutTok × Nat
  | pc, [] => ([], pc)
  | pc, p :: rest =>
    ((processPage ts user pc p).1
      ++ (runPages ts user (processPage ts user pc p).2 rest).1,
     (runPages ts user (processPage ts user pc p).2 rest).2)

/-- Whole-process model of `main`: exit 1 with no output if the input file or
the raster stream cannot be opened; otherwise run the page loop, emit the job
trailer iff at least one page was emitted, and exit 0 iff at least one page
was emitted. -/
def mainRun (inputOpenOk rasterOpenOk : Bool) (ts user : String)
    (pages : List PageInput) : List OutTok × Nat :=
  if inputOpenOk then
    if rasterOpenOk then
      let r := runPages ts user 0 pages
      (r.1 ++ (if 0 < r.2 then [OutTok.jobTrailer] else []),
       if 0 < r.2 then 0 else 1)
    else ([], 1)
  else ([], 1)

/-- Token classifier: the job-header block. -/
def isJobHdrTok : OutTok → Bool
  | OutTok.jobHdr _ _ => true
  | _ => false

/-- Token classifier: a per-page header block (the start of a page frame). -/
def isPageHdrTok : OutTok → Bool
  | OutTok.pageHdr _ _ _ _ _ _ => true
  | _ => false

/-- Token classifier: the job-trailer block. -/
def isJobTrailerTok : OutTok → Bool
  | OutTok.jobTrailer => true
  | _ => false

/-- Number of tokens of a given kind in an output stream. -/
def countTok (p : OutTok → Bool) (l : List OutTok) : Nat := (l.filter p).length

/-- The bit of a packed row that holds pixel `x`: bit `7 - x % 8` of byte
`x / 8` (most-significant-bit-first, as `0x80 >> (x % 8)` packs it). -/
def bitAt (row : List Nat) (x : Nat) : Bool :=
  (row.getD (x / 8) 0).testBit (7 - x % 8)

/-- Decidable check that the padding bits of a packed row are zero: every
pixel position from `width` up to `8 * pbm_stride width - 1` is unset. -/
def paddingZeroB (width : Nat) (row : List Nat) : Bool :=
  (List.range (8 * pbm_stride width)).all
    (fun x => decide (x < width) || !(bitAt row x))

/-! ### Helper lemmas -/

lemma getD_replicate_zero (n j : Nat) : (List.replicate n (0 : Nat)).getD j 0 = 0 := by
  rw [List.getD_eq_getElem?_getD, List.getElem?_replicate]
  split <;> rfl

lemma getD_set (l : List Nat) (i j v : Nat) :
    (l.set i v).getD j 0 = if i = j ∧ i < l.length then v else l.getD j 0 := by
  rw [List.getD_eq_getElem?_getD, List.getElem?_set]
  by_cases h : i = j
  · subst h
    by_cases h2 : i < l.length
    · simp [h2]
    · simp [h2, List.getElem?_eq_none (Nat.le_of_not_lt h2)]
  · simp [h, List.getD_eq_getElem?_getD]

/-! ### Theorems for the claims -/

/-- Claim C10: the 1-bpp branch copies `ceil(width/8)` bytes out of the line
buffer (which holds `cupsBytesPerLine` bytes); under the precondition
`cupsBytesPerLine ≥ ceil(cupsWidth/8)` every line-buffer index it reads is in
bounds; the read-index list is `range (pbm_stride width)` with no check
against `bpl`, while the unsupported-bpp branch reads only
`min (pbm_stride width) bpl` indices, in bounds for every `bpl`. -/
theorem c10_line_buffer_inbounds (width bpl : Nat)
    (h : pbm_stride width ≤ bpl) :
    (line_read_idx_1bpp width).all (fun i => decide (i < bpl)) = true
    ∧ (line_read_idx_fallback width bpl).all (fun i => decide (i < bpl)) = true
    ∧ line_read_idx_1bpp width = List.range (pbm_stride width) := by
  refine ⟨?_, ?_, rfl⟩
  · simp only [line_read_idx_1bpp, List.all_eq_true, List.mem_range,
      decide_eq_true_eq]
    intro i hi
    exact lt_of_lt_of_le hi h
  · simp only [line_read_idx_fallback, List.all_eq_true, List.mem_range,
      decide_eq_true_eq]
    intro i hi
    exact lt_of_lt_of_le hi (Nat.min_le_right _ _)

/-- Witness for C10 at width = 16, bytes-per-line = 2. -/
theorem c10_witness :
    (line_read_idx_1bpp 16).all (fun i => decide (i < 2)) = true
    ∧ (line_read_idx_fallback 16 2).all (fun i => decide (i < 2)) = true := by
  have h := c10_line_buffer_inbounds 16 2 (by decide)
  exact ⟨h.1, h.2.1⟩

/-- Claim C7: the compressed-payload buffer starts at capacity 65536; when a
chunk would exceed the capacity the new capacity is double the old one,
unless doubling is still insufficient, in which case it is exactly the needed
size (current length + chunk length) plus 65536; a chunk that fits leaves the
capacity unchanged. -/
theorem c7_capacity_growth :
    jbigBufInit.capacity = 65536
    ∧ (∀ (b : JbigBuffer) (chunk : List Nat),
        b.capacity < b.data.length + chunk.length →
        (jbig_data_cb true b chunk).capacity =
          if b.capacity * 2 < b.data.length + chunk.length
          then b.data.length + chunk.length + 65536
          else b.capacity * 2)
    ∧ (∀ (ok : Bool) (b : JbigBuffer) (chunk : List Nat),
        b.data.length + chunk.length ≤ b.capacity →
        (jbig_data_cb ok b chunk).capacity = b.capacity) := by
  refine ⟨rfl, ?_, ?_⟩
  · intro b chunk h
    simp [jbig_data_cb, h]
  · intro ok b chunk h
    simp only [jbig_data_cb, if_neg (Nat.not_lt.mpr h)]

/-- Witness for C7: a buffer of capacity 1 holding 2 bytes receives a 2-byte
chunk; doubling (to 2) is insufficient, so the new capacity is 4 + 65536. -/
theorem c7_witness :
    (jbig_data_cb true { data := [1, 2], capacity := 1 } [3, 4]).capacity
      = 65540 := by
  have h := c7_capacity_growth.2.1 { data := [1, 2], capacity := 1 } [3, 4]
    (by decide)
  simpa using h

/-- Claim C9: determinism — the whole run is a pure function of the raster
input, the allocation outcomes, the timestamp and the user name, so two runs
on equal inputs produce byte-for-byte equal output streams and exit codes. -/
theorem c9_determinism (io ro : Bool) (ts ts2 user user2 : String)
    (pages pages2 : List PageInput)
    (hts : ts = ts2) (hu : user = user2) (hp : pages = pages2) :
    mainRun io ro ts user pages = mainRun io ro ts2 user2 pages2 := by
  subst hts hu hp
  rfl

/-- Witness for C9 on a concrete run. -/
theorem c9_witness :
    mainRun true true "2024/01/01 00:00:00" "alice" []
      = mainRun true true "2024/01/01 00:00:00" "alice" [] :=
  c9_determinism true true "2024/01/01 00:00:00" "2024/01/01 00:00:00"
    "alice" "alice" [] [] rfl rfl rfl

/-- Claim C8: the PAPER value is computed from the paper-size name by
case-insensitive match per the table (A4→A4, Letter→LETTER, Legal→LEGAL,
A5→A5, A6→A6, B5→B5, B6→B6, Monarch→MONARCH), with any unmatched or absent
name mapping to A4 — i.e. `cups_to_pjl_paper` agrees with the spec's lookup
table on every input. -/
theorem c8_paper_mapping : ∀ s, cups_to_pjl_paper s = paperTableSpec s := by
  intro s
  cases s with
  | none => rfl
  | some s =>
    have e1 : lowerChars "A4" = "a4".data := by decide
    have e2 : lowerChars "Letter" = "letter".data := by decide
    have e3 : lowerChars "Legal" = "legal".data := by decide
    have e4 : lowerChars "A5" = "a5".data := by decide
    have e5 : lowerChars "A6" = "a6".data := by decide
    have e6 : lowerChars "B5" = "b5".data := by decide
    have e7 : lowerChars "B6" = "b6".data := by decide
    have e8 : lowerChars "Monarch" = "monarch".data := by decide
    simp only [cups_to_pjl_paper, paperTableSpec, strcaseeq, List.lookup,
      e1, e2, e3, e4, e5, e6, e7, e8]
    split_ifs with h1 h2 h3 h4 h5 h6 h7 h8 <;>
      simp_all [beq_eq_false_iff_ne.mpr]

/-! ### Bit-level facts about the 8-bpp packing loop -/

lemma pack8_foldl_length (cs : Nat) (line : List Nat) :
    ∀ (xs : List Nat) (dst : List Nat),
      (xs.foldl (pack8Step cs line) dst).length = dst.length := by
  intro xs
  induction xs with
  | nil => intro dst; rfl
  | cons a l ih =>
    intro dst
    rw [List.foldl_cons, ih]
    unfold pack8Step
    split <;> simp

lemma width_le_8_stride (width : Nat) : width ≤ 8 * pbm_stride width := by
  unfold pbm_stride
  have h1 := Nat.div_add_mod (width + 7) 8
  have h2 := Nat.mod_lt (width + 7) (show 0 < 8 by norm_num)
  omega

lemma testBit_shift128 (m k : Nat) (hm : m < 8) (hk : k < 8) :
    (128 >>> m).testBit (7 - k) = decide (m = k) := by
  rw [Nat.testBit_shiftRight]
  rw [show (128 : Nat) = 2 ^ 7 by norm_num, Nat.testBit_two_pow]
  have : 7 = m + (7 - k) ↔ m = k := by omega
  simp [this]

lemma pack8Aux_bitAt (cs : Nat) (line : List Nat) (stride : Nat) :
    ∀ n, n ≤ 8 * stride → ∀ x,
      bitAt ((List.range n).foldl (pack8Step cs line)
        (List.replicate stride 0)) x
        = (decide (x < n) && isBlackCls cs (line.getD x 0)) := by
  intro n
  induction n with
  | zero =>
    intro _ x
    simp [bitAt, getD_replicate_zero]
  | succ n ih =>
    intro hn x
    rw [List.range_succ, List.foldl_append]
    set L := (List.range n).foldl (pack8Step cs line) (List.replicate stride 0)
      with hL
    have hlen : L.length = stride := by
      rw [hL, pack8_foldl_length]; exact List.length_replicate stride 0
    have hdiv : n / 8 < stride := by
      have h8 : (0:Nat) < 8 := by norm_num
      rw [Nat.div_lt_iff_lt_mul h8]
      omega
    simp only [List.foldl_cons, List.foldl_nil]
    have hbit := ih (by omega) x
    unfold pack8Step
    by_cases hb : isBlackCls cs (line.getD n 0)
    · rw [if_pos hb]
      unfold bitAt
      rw [getD_set]
      by_cases hxy : n / 8 = x / 8
      · rw [if_pos ⟨hxy, by rw [hlen]; exact hdiv⟩]
        rw [Nat.testBit_or]
        rw [testBit_shift128 (n % 8) (x % 8) (Nat.mod_lt n (by norm_num))
          (Nat.mod_lt x (by norm_num))]
        by_cases hxn : x = n
        · subst hxn
          rw [hb]
          simp [Nat.lt_succ_self]
        · have hmod : ¬ (n % 8 = x % 8) := by
            intro hc
            apply hxn
            have d1 := Nat.div_add_mod x 8
            have d2 := Nat.div_add_mod n 8
            omega
          rw [hxy]
          unfold bitAt at hbit
          rw [hbit, decide_eq_false hmod, Bool.or_false]
          have hiff : (decide (x < n + 1)) = (decide (x < n)) := by
            simp only [decide_eq_decide]
            omega
          rw [hiff]
      · rw [if_neg (by intro hc; exact hxy hc.1)]
        unfold bitAt at hbit
        rw [hbit]
        have hxn : x ≠ n := by
          intro hc; exact hxy (by rw [hc])
        have hiff : (decide (x < n + 1)) = (decide (x < n)) := by
          simp only [decide_eq_decide]
          omega
        rw [hiff]
    · rw [if_neg hb]
      rw [hbit]
      by_cases hxn : x = n
      · subst hxn
        rw [Bool.not_eq_true] at hb
        rw [hb]
        simp
      · have hiff : (decide (x < n + 1)) = (decide (x < n)) := by
          simp only [decide_eq_decide]
          omega
        rw [hiff]

lemma pack8Row_bitAt (cs width : Nat) (line : List Nat) (x : Nat) :
    bitAt (pack8Row cs width line) x
      = (decide (x < width) && isBlackCls cs (line.getD x 0)) := by
  unfold pack8Row
  exact pack8Aux_bitAt cs line (pbm_stride width) width
    (width_le_8_stride width) x

/-- Claim C6: in an 8-bpp page every pixel is classified with a midpoint
threshold and packed MSB-first (pixel `x` lands in bit `7 - x % 8` of byte
`x / 8`): under any non-"W"-style colour space (e.g. `CUPS_CSPACE_K`) the
pixel is a mark iff its value is ≥ 128, so 127 is non-mark and 128 is mark;
under `CUPS_CSPACE_W` or `CUPS_CSPACE_SW` the classification is inverted at
the same threshold (mark iff value < 128). -/
theorem c6_threshold_classification (width : Nat) (line : List Nat) (x : Nat)
    (cs : Nat) (hx : x < width) :
    (cs ≠ CUPS_CSPACE_W → cs ≠ CUPS_CSPACE_SW →
      bitAt (pack8Row cs width line) x = decide (128 ≤ line.getD x 0))
    ∧ bitAt (pack8Row CUPS_CSPACE_W width line) x
        = decide (line.getD x 0 < 128)
    ∧ bitAt (pack8Row CUPS_CSPACE_SW width line) x
        = decide (line.getD x 0 < 128) := by
  refine ⟨fun h1 h2 => ?_, ?_, ?_⟩ <;> rw [pack8Row_bitAt] <;>
    simp [isBlackCls, hx]
  intro hc
  rcases hc with hc | hc
  · exact absurd hc h1
  · exact absurd hc h2

/-- Witness for C6: a single-pixel K-space row with value 128 packs a set
bit, and with value 127 packs a clear bit; the W-space classification is the
inverse. -/
theorem c6_witness :
    bitAt (pack8Row CUPS_CSPACE_K 1 [128]) 0 = true
    ∧ bitAt (pack8Row CUPS_CSPACE_K 1 [127]) 0 = false
    ∧ bitAt (pack8Row CUPS_CSPACE_W 1 [128]) 0 = false
    ∧ bitAt (pack8Row CUPS_CSPACE_W 1 [127]) 0 = true := by
  have h1 := (c6_threshold_classification 1 [128] 0 CUPS_CSPACE_K
    (by decide)).1 (by decide) (by decide)
  have h2 := (c6_threshold_classification 1 [127] 0 CUPS_CSPACE_K
    (by decide)).1 (by decide) (by decide)
  have h3 := (c6_threshold_classification 1 [128] 0 CUPS_CSPACE_K
    (by decide)).2.1
  have h4 := (c6_threshold_classification 1 [127] 0 CUPS_CSPACE_K
    (by decide)).2.1
  refine ⟨?_, ?_, ?_, ?_⟩
  · rw [h1]; decide
  · rw [h2]; decide
  · rw [h3]; decide
  · rw [h4]; decide

/-! ### Row padding -/

lemma paddingZeroB_pack8Row (cs width : Nat) (line : List Nat) :
    paddingZeroB width (pack8Row cs width line) = true := by
  simp only [paddingZeroB, List.all_eq_true, List.mem_range]
  intro x _
  by_cases hw : x < width
  · simp [hw]
  · simp [hw, pack8Row_bitAt]

lemma paddingZeroB_zeroRow (width : Nat) :
    paddingZeroB width (zeroRow width) = true := by
  simp only [paddingZeroB, List.all_eq_true, List.mem_range]
  intro x _
  simp [bitAt, zeroRow, getD_replicate_zero]

lemma buildRows_all_padding (hdr : PageHeader) (h8 : hdr.cupsBitsPerPixel = 8) :
    ∀ (h : Nat) (lines : List (Option (List Nat))),
      (buildRows hdr h lines).all (paddingZeroB hdr.cupsWidth) = true := by
  intro h
  induction h with
  | zero => intro lines; rfl
  | succ h ih =>
    intro lines
    cases lines with
    | nil =>
      simp only [buildRows, List.all_eq_true, List.mem_replicate]
      intro r hr
      rw [hr.2]
      exact paddingZeroB_zeroRow _
    | cons l rest =>
      cases l with
      | none =>
        simp only [buildRows, List.all_eq_true, List.mem_replicate]
        intro r hr
        rw [hr.2]
        exact paddingZeroB_zeroRow _
      | some l =>
        simp only [buildRows, List.all_cons, Bool.and_eq_true]
        refine ⟨?_, ih rest⟩
        unfold convRow
        rw [h8]
        simp only [if_neg (by norm_num : ¬ (8 = 1)), if_pos rfl]
        exact paddingZeroB_pack8Row _ _ _

/-- Claim C3 counterexample: on a 1-bpp page of width 4 whose single source
line is the byte 0xFF, the Normalizer copies the byte verbatim, so the 4
padding bits at the end of the row are 1, not 0 — refuting the claim for
bits-per-pixel = 1. -/
theorem c3_counterexample :
    raster_to_pbm true
        { cupsWidth := 4, cupsHeight := 1, cupsBytesPerLine := 1,
          cupsBitsPerPixel := 1, cupsColorSpace := 3,
          cupsPageSizeName := none, hwResolution := 600, mediaPosition := 0 }
        [some [255]]
      = some [[255]]
    ∧ paddingZeroB 4 [255] = false := by
  constructor
  · decide
  · decide

/-- Claim C3 amended: for every page the Normalizer produces with
bits-per-pixel = 8, every row is fully packed with zero padding bits (rows
lost to a short read are all-zero and also qualify); for 1-bpp and
unsupported depths the padding bits are copied from the source line and need
not be zero (see the counterexample). -/
theorem c3_padding_8bpp (hdr : PageHeader)
    (lines : List (Option (List Nat))) (bm : List (List Nat))
    (h8 : hdr.cupsBitsPerPixel = 8)
    (hbm : raster_to_pbm true hdr lines = some bm) :
    bm.all (paddingZeroB hdr.cupsWidth) = true := by
  have : bm = buildRows hdr hdr.cupsHeight lines := by
    unfold raster_to_pbm at hbm
    simp at hbm
    exact hbm.symm
  rw [this]
  exact buildRows_all_padding hdr h8 hdr.cupsHeight lines

/-- Witness for C3 (amended) on a concrete 8-bpp page with a short read. -/
theorem c3_witness :
    ([[144], [0]] : List (List Nat)).all (paddingZeroB 4) = true :=
  c3_padding_8bpp
    { cupsWidth := 4, cupsHeight := 2, cupsBytesPerLine := 4,
      cupsBitsPerPixel := 8, cupsColorSpace := 3,
      cupsPageSizeName := none, hwResolution := 600, mediaPosition := 0 }
    [some [200, 10, 100, 244], none] [[144], [0]] rfl (by decide)

/-! ### Compressor-adapter accumulation (C1) -/

lemma jbig_data_cb_true_data (b : JbigBuffer) (chunk : List Nat) :
    (jbig_data_cb true b chunk).data = b.data ++ chunk := by
  unfold jbig_data_cb
  split <;> simp

lemma jbig_foldl_accumulate :
    ∀ (chunks : List (List Nat × Bool)) (b : JbigBuffer),
      (∀ p ∈ chunks, p.2 = true) →
      (chunks.foldl (fun b c => jbig_data_cb c.2 b c.1) b).data
        = b.data ++ (chunks.map Prod.fst).flatten := by
  intro chunks
  induction chunks with
  | nil => intro b _; simp
  | cons c rest ih =>
    intro b hall
    have hc : c.2 = true := hall c (List.mem_cons_self c rest)
    simp only [List.foldl_cons, List.map_cons, List.flatten_cons]
    rw [hc, ih (jbig_data_cb true b c.1)
      (fun p hp => hall p (List.mem_cons_of_mem c hp))]
    rw [jbig_data_cb_true_data, List.append_assoc]

/-- Claim C1 amended: when every reallocation succeeds the adapter
accumulates every byte of every emit-callback invocation, in call order,
into one contiguous buffer; but when a reallocation fails on a chunk that
cannot be accommodated, only that chunk is dropped (the buffer is returned
unchanged) — the page is NOT abandoned: `pbm_to_jbig` returns `none` only on
initial-allocation failure, so the page is emitted with a shortened payload
(see the counterexample). -/
theorem c1_accumulation :
    (∀ chunks : List (List Nat × Bool), (∀ p ∈ chunks, p.2 = true) →
      pbm_to_jbig true chunks = some ((chunks.map Prod.fst).flatten))
    ∧ (∀ (b : JbigBuffer) (chunk : List Nat),
        b.capacity < b.data.length + chunk.length →
        jbig_data_cb false b chunk = b)
    ∧ pbm_to_jbig false [] = none := by
  refine ⟨?_, ?_, rfl⟩
  · intro chunks hall
    unfold pbm_to_jbig
    rw [if_pos rfl, jbig_foldl_accumulate chunks jbigBufInit hall]
    rfl
  · intro b chunk h
    unfold jbig_data_cb
    rw [if_pos h]
    rfl

/-- Witness for C1 (amended): two successful callback invocations accumulate
in call order. -/
theorem c1_witness :
    pbm_to_jbig true [([1, 2], true), ([3], true)] = some [1, 2, 3] := by
  have h := c1_accumulation.1 [([1, 2], true), ([3], true)] (by decide)
  simpa using h

/-- Reusable fact: a first-page `processPage` run that skips nothing emits
the job header and one page frame and advances the page counter. -/
lemma processPage_emit_first (ts user : String) (p : PageInput) (jb : List Nat)
    (hskip : ¬ (p.header.cupsBytesPerLine = 0 ∨ p.header.cupsHeight = 0))
    (ha : p.pbmAllocOk = true)
    (hj : pbm_to_jbig p.jbigInitAllocOk p.chunks = some jb) :
    processPage ts user 0 p
      = ([OutTok.jobHdr ts user] ++ pageFrame p.header jb, 1) := by
  unfold processPage
  rw [if_neg hskip, ha]
  simp [raster_to_pbm, hj]

/-- Reusable fact: when the first emit callback exactly fills the initial
capacity and the reallocation for the second chunk fails, the second chunk is
dropped and `pbm_to_jbig` still returns the shortened buffer. -/
lemma pbm_to_jbig_drops_chunk (c1 c2 : List Nat)
    (h1 : c1.length = 65536) (h2 : c2.length = 2) :
    pbm_to_jbig true [(c1, true), (c2, false)] = some c1 := by
  have e1 : jbig_data_cb true jbigBufInit c1
      = { data := c1, capacity := 65536 } := by
    simp [jbig_data_cb, jbigBufInit, h1]
  have e2 : jbig_data_cb false { data := c1, capacity := 65536 } c2
      = { data := c1, capacity := 65536 } := by
    simp [jbig_data_cb, h1, h2]
  have hfold : pbm_to_jbig true [(c1, true), (c2, false)]
      = some (jbig_data_cb false (jbig_data_cb true jbigBufInit c1) c2).data :=
    rfl
  rw [hfold, e1, e2]

/-- Claim C1 counterexample: the first emit callback fills the buffer to its
initial 65536-byte capacity; the second callback needs a reallocation, which
fails, so its two bytes are silently dropped — yet the page is still emitted
(the page counter advances and a page frame with the shortened payload is
written), instead of being abandoned with no envelope or payload. -/
theorem c1_counterexample :
    pbm_to_jbig true [(List.replicate 65536 1, true), ([2, 3], false)]
      = some (List.replicate 65536 1)
    ∧ ((([(List.replicate 65536 1, true), ([2, 3], false)] :
        List (List Nat × Bool)).map Prod.fst).flatten
        ≠ List.replicate 65536 1)
    ∧ (processPage "T" "U" 0
        { header :=
            { cupsWidth := 8, cupsHeight := 1, cupsBytesPerLine := 1,
              cupsBitsPerPixel := 1, cupsColorSpace := 3,
              cupsPageSizeName := none, hwResolution := 600, mediaPosition := 0 },
          pbmAllocOk := true, lines := [some [0]], jbigInitAllocOk := true,
          chunks := [(List.replicate 65536 1, true), ([2, 3], false)] }).2 = 1
    ∧ countTok isPageHdrTok
        (processPage "T" "U" 0
          { header :=
              { cupsWidth := 8, cupsHeight := 1, cupsBytesPerLine := 1,
                cupsBitsPerPixel := 1, cupsColorSpace := 3,
                cupsPageSizeName := none, hwResolution := 600, mediaPosition := 0 },
            pbmAllocOk := true, lines := [some [0]], jbigInitAllocOk := true,
            chunks := [(List.replicate 65536 1, true), ([2, 3], false)] }).1
        = 1 := by
  have hdrop := pbm_to_jbig_drops_chunk (List.replicate 65536 1) [2, 3]
    (List.length_replicate 65536 1) rfl
  have hemit := processPage_emit_first "T" "U"
    { header :=
        { cupsWidth := 8, cupsHeight := 1, cupsBytesPerLine := 1,
          cupsBitsPerPixel := 1, cupsColorSpace := 3,
          cupsPageSizeName := none, hwResolution := 600, mediaPosition := 0 },
      pbmAllocOk := true, lines := [some [0]], jbigInitAllocOk := true,
      chunks := [(List.replicate 65536 1, true), ([2, 3], false)] }
    (List.replicate 65536 1) (by simp) rfl hdrop
  refine ⟨hdrop, ?_, ?_, ?_⟩
  · intro hc
    have hlen := congrArg List.length hc
    simp only [List.map_cons, List.map_nil, List.flatten_cons, List.flatten_nil,
      List.length_append, List.length_replicate, List.length_nil,
      List.length_cons] at hlen
    omega
  · rw [hemit]
  · rw [hemit]
    simp only [countTok, pageFrame, isPageHdrTok, List.cons_append,
      List.nil_append, List.filter_cons, List.filter_nil]
    rfl

/-! ### Short-read behaviour of the Normalizer (C2) -/

lemma buildRows_short (hdr : PageHeader) :
    ∀ (good : List (List Nat)) (h : Nat) (rest : List (Option (List Nat))),
      good.length < h →
      buildRows hdr h (good.map some ++ none :: rest)
        = good.map (convRow hdr)
          ++ List.replicate (h - good.length) (zeroRow hdr.cupsWidth) := by
  intro good
  induction good with
  | nil =>
    intro h rest hlt
    cases h with
    | zero => omega
    | succ k => simp [buildRows]
  | cons l g ih =>
    intro h rest hlt
    cases h with
    | zero => omega
    | succ k =>
      simp only [List.map_cons, List.cons_append, List.append_eq, buildRows]
      rw [ih k rest (by simpa using Nat.lt_of_succ_lt_succ hlt)]
      simp [Nat.succ_sub_succ]

/-- Claim C2 amended: on a short pixel-line read the remaining rows stay
zero, but the page is NOT abandoned and no failure is reported through the
return value: `raster_to_pbm` still returns the partially filled bitmap
(`some`), which the caller compresses and emits (see the counterexample). -/
theorem c2_short_read (hdr : PageHeader) (good : List (List Nat))
    (rest : List (Option (List Nat))) (hlt : good.length < hdr.cupsHeight) :
    raster_to_pbm true hdr (good.map some ++ none :: rest)
      = some (good.map (convRow hdr)
          ++ List.replicate (hdr.cupsHeight - good.length)
              (zeroRow hdr.cupsWidth)) := by
  unfold raster_to_pbm
  rw [if_pos rfl, buildRows_short hdr good hdr.cupsHeight rest hlt]

/-- Witness for C2 (amended): a 2-row page whose second read fails yields a
bitmap whose first row is converted and whose second row is zero. -/
theorem c2_witness :
    raster_to_pbm true
        { cupsWidth := 8, cupsHeight := 2, cupsBytesPerLine := 1,
          cupsBitsPerPixel := 1, cupsColorSpace := 3,
          cupsPageSizeName := none, hwResolution := 600, mediaPosition := 0 }
        [some [170], none]
      = some [[170], [0]] :=
  c2_short_read
    { cupsWidth := 8, cupsHeight := 2, cupsBytesPerLine := 1,
      cupsBitsPerPixel := 1, cupsColorSpace := 3,
      cupsPageSizeName := none, hwResolution := 600, mediaPosition := 0 }
    [[170]] [] (by decide)

/-- Claim C2 counterexample: a page whose second pixel-line read fails is
still converted (`raster_to_pbm` does not return `none`), compressed and
emitted: the page counter advances and a non-empty frame is written — the
page is not abandoned and no recoverable failure reaches the caller. -/
theorem c2_counterexample :
    raster_to_pbm true
        { cupsWidth := 8, cupsHeight := 2, cupsBytesPerLine := 1,
          cupsBitsPerPixel := 1, cupsColorSpace := 3,
          cupsPageSizeName := none, hwResolution := 600, mediaPosition := 0 }
        [some [170], none] ≠ none
    ∧ (processPage "T" "U" 0
        { header :=
            { cupsWidth := 8, cupsHeight := 2, cupsBytesPerLine := 1,
              cupsBitsPerPixel := 1, cupsColorSpace := 3,
              cupsPageSizeName := none, hwResolution := 600, mediaPosition := 0 },
          pbmAllocOk := true, lines := [some [170], none],
          jbigInitAllocOk := true, chunks := [([9], true)] }).2 = 1
    ∧ (processPage "T" "U" 0
        { header :=
            { cupsWidth := 8, cupsHeight := 2, cupsBytesPerLine := 1,
              cupsBitsPerPixel := 1, cupsColorSpace := 3,
              cupsPageSizeName := none, hwResolution := 600, mediaPosition := 0 },
          pbmAllocOk := true, lines := [some [170], none],
          jbigInitAllocOk := true, chunks := [([9], true)] }).1 ≠ [] := by
  refine ⟨by decide, by decide, by decide⟩

/-! ### Page-loop structure (C4, C5) -/

lemma processPage_spec (ts user : String) (pc : Nat) (p : PageInput) :
    processPage ts user pc p = ([], pc)
    ∨ ∃ jb, processPage ts user pc p
        = ((if pc = 0 then [OutTok.jobHdr ts user] else [])
            ++ pageFrame p.header jb, pc + 1) := by
  unfold processPage
  split
  · exact Or.inl rfl
  · cases hA : raster_to_pbm p.pbmAllocOk p.header p.lines with
    | none => exact Or.inl rfl
    | some bm =>
      cases hB : pbm_to_jbig p.jbigInitAllocOk p.chunks with
      | none => exact Or.inl rfl
      | some jb => exact Or.inr ⟨jb, rfl⟩

lemma countTok_append (p : OutTok → Bool) (l1 l2 : List OutTok) :
    countTok p (l1 ++ l2) = countTok p l1 + countTok p l2 := by
  simp [countTok, List.filter_append]

lemma pageFrame_count_page (hdr : PageHeader) (jb : List Nat) :
    countTok isPageHdrTok (pageFrame hdr jb) = 1 := rfl

lemma pageFrame_count_jobhdr (hdr : PageHeader) (jb : List Nat) :
    countTok isJobHdrTok (pageFrame hdr jb) = 0 := rfl

lemma pageFrame_count_trailer (hdr : PageHeader) (jb : List Nat) :
    countTok isJobTrailerTok (pageFrame hdr jb) = 0 := rfl

lemma hdrToks_count_page (ts user : String) (pc : Nat) :
    countTok isPageHdrTok (if pc = 0 then [OutTok.jobHdr ts user] else [])
      = 0 := by
  split <;> rfl

lemma hdrToks_count_jobhdr (ts user : String) (pc : Nat) :
    countTok isJobHdrTok (if pc = 0 then [OutTok.jobHdr ts user] else [])
      = (if pc = 0 then 1 else 0) := by
  split <;> rfl

lemma hdrToks_count_trailer (ts user : String) (pc : Nat) :
    countTok isJobTrailerTok (if pc = 0 then [OutTok.jobHdr ts user] else [])
      = 0 := by
  split <;> rfl

lemma emitFirst_count_jobhdr (ts user : String) (hdr : PageHeader)
    (jb : List Nat) :
    countTok isJobHdrTok (OutTok.jobHdr ts user :: pageFrame hdr jb) = 1 := rfl

lemma runPages_count_frames (ts user : String) :
    ∀ (pages : List PageInput) (pc : Nat),
      countTok isPageHdrTok (runPages ts user pc pages).1 + pc
        = (runPages ts user pc pages).2 := by
  intro pages
  induction pages with
  | nil => intro pc; simp [runPages, countTok]
  | cons p rest ih =>
    intro pc
    rcases processPage_spec ts user pc p with hp | ⟨jb, hp⟩
    · simp only [runPages, hp]
      simpa using ih pc
    · simp only [runPages, hp, countTok_append]
      rw [hdrToks_count_page, pageFrame_count_page]
      have := ih (pc + 1)
      omega

lemma runPages_count_trailer (ts user : String) :
    ∀ (pages : List PageInput) (pc : Nat),
      countTok isJobTrailerTok (runPages ts user pc pages).1 = 0 := by
  intro pages
  induction pages with
  | nil => intro pc; rfl
  | cons p rest ih =>
    intro pc
    rcases processPage_spec ts user pc p with hp | ⟨jb, hp⟩
    · simp only [runPages, hp]
      simpa using ih pc
    · simp only [runPages, hp, countTok_append]
      rw [hdrToks_count_trailer, pageFrame_count_trailer]
      simpa using ih (pc + 1)

lemma runPages_count_jobhdr_pos (ts user : String) :
    ∀ (pages : List PageInput) (pc : Nat), pc ≠ 0 →
      countTok isJobHdrTok (runPages ts user pc pages).1 = 0 := by
  intro pages
  induction pages with
  | nil => intro pc _; rfl
  | cons p rest ih =>
    intro pc hpc
    rcases processPage_spec ts user pc p with hp | ⟨jb, hp⟩
    · simp only [runPages, hp]
      simpa using ih pc hpc
    · simp only [runPages, hp, countTok_append]
      rw [hdrToks_count_jobhdr, if_neg hpc, pageFrame_count_jobhdr]
      simpa using ih (pc + 1) (Nat.succ_ne_zero pc)

lemma runPages_count_jobhdr_zero (ts user : String) :
    ∀ (pages : List PageInput),
      countTok isJobHdrTok (runPages ts user 0 pages).1
        = (if 0 < (runPages ts user 0 pages).2 then 1 else 0) := by
  intro pages
  induction pages with
  | nil => rfl
  | cons p rest ih =>
    rcases processPage_spec ts user 0 p with hp | ⟨jb, hp⟩
    · simp only [runPages, hp]
      simpa using ih
    · have hp0 : processPage ts user 0 p
          = (OutTok.jobHdr ts user :: pageFrame p.header jb, 1) := by
        simpa using hp
      simp only [runPages, hp0, countTok_append]
      rw [emitFirst_count_jobhdr,
        runPages_count_jobhdr_pos ts user rest 1 (Nat.one_ne_zero)]
      have hge := runPages_count_frames ts user rest 1
      have hpos : 0 < (runPages ts user 1 rest).2 := by omega
      rw [if_pos hpos]

lemma runPages_head_zero (ts user : String) :
    ∀ (pages : List PageInput),
      0 < (runPages ts user 0 pages).2 →
      (runPages ts user 0 pages).1.head? = some (OutTok.jobHdr ts user) := by
  intro pages
  induction pages with
  | nil => intro h; exact absurd h (by simp [runPages])
  | cons p rest ih =>
    intro hpos
    rcases processPage_spec ts user 0 p with hp | ⟨jb, hp⟩
    · simp only [runPages, hp] at hpos ⊢
      simpa using ih (by simpa using hpos)
    · have hp0 : processPage ts user 0 p
          = (OutTok.jobHdr ts user :: pageFrame p.header jb, 1) := by
        simpa using hp
      simp only [runPages, hp0]
      rfl

lemma mainRun_frames (ts user : String) (pages : List PageInput) :
    countTok isPageHdrTok (mainRun true true ts user pages).1
      = (runPages ts user 0 pages).2 := by
  have hmain : (mainRun true true ts user pages).1
      = (runPages ts user 0 pages).1
        ++ (if 0 < (runPages ts user 0 pages).2
            then [OutTok.jobTrailer] else []) := rfl
  rw [hmain, countTok_append]
  have h2 : countTok isPageHdrTok
      (if 0 < (runPages ts user 0 pages).2
       then [OutTok.jobTrailer] else []) = 0 := by
    split <;> rfl
  rw [h2]
  have := runPages_count_frames ts user pages 0
  omega

/-- Claim C4: the job header appears iff at least one page is emitted,
exactly once, and before the first page frame (it is the very first output
token); the job trailer appears iff at least one page is emitted, exactly
once, after the last page frame (it is the very last output token). -/
theorem c4_job_envelope (ts user : String) (pages : List PageInput) :
    countTok isJobHdrTok (mainRun true true ts user pages).1
      = (if 0 < countTok isPageHdrTok (mainRun true true ts user pages).1
         then 1 else 0)
    ∧ countTok isJobTrailerTok (mainRun true true ts user pages).1
      = (if 0 < countTok isPageHdrTok (mainRun true true ts user pages).1
         then 1 else 0)
    ∧ (0 < countTok isPageHdrTok (mainRun true true ts user pages).1 →
        (mainRun true true ts user pages).1.head?
            = some (OutTok.jobHdr ts user)
        ∧ (mainRun true true ts user pages).1.getLast?
            = some OutTok.jobTrailer) := by
  have hout : (mainRun true true ts user pages).1
      = (runPages ts user 0 pages).1
        ++ (if 0 < (runPages ts user 0 pages).2
            then [OutTok.jobTrailer] else []) := rfl
  have hframes := mainRun_frames ts user pages
  refine ⟨?_, ?_, fun hpos => ⟨?_, ?_⟩⟩
  · rw [hframes, hout, countTok_append, runPages_count_jobhdr_zero]
    have h0 : countTok isJobHdrTok
        (if 0 < (runPages ts user 0 pages).2
         then [OutTok.jobTrailer] else []) = 0 := by
      split <;> rfl
    rw [h0, Nat.add_zero]
  · rw [hframes, hout, countTok_append, runPages_count_trailer]
    have h0 : countTok isJobTrailerTok
        (if 0 < (runPages ts user 0 pages).2
         then [OutTok.jobTrailer] else [])
        = (if 0 < (runPages ts user 0 pages).2 then 1 else 0) := by
      split <;> rfl
    rw [h0, Nat.zero_add]
  · rw [hframes] at hpos
    rw [hout, if_pos hpos, List.head?_append,
      runPages_head_zero ts user pages hpos]
    rfl
  · rw [hframes] at hpos
    rw [hout, if_pos hpos, List.getLast?_concat]

/-- Witness for C4 on a one-page job: the output starts with the job header
and ends with the job trailer. -/
theorem c4_witness :
    (mainRun true true "T" "U"
      [{ header :=
          { cupsWidth := 8, cupsHeight := 1, cupsBytesPerLine := 1,
            cupsBitsPerPixel := 1, cupsColorSpace := 3,
            cupsPageSizeName := none, hwResolution := 600, mediaPosition := 0 },
         pbmAllocOk := true, lines := [some [0]], jbigInitAllocOk := true,
         chunks := [([9], true)] }]).1.head?
      = some (OutTok.jobHdr "T" "U")
    ∧ (mainRun true true "T" "U"
      [{ header :=
          { cupsWidth := 8, cupsHeight := 1, cupsBytesPerLine := 1,
            cupsBitsPerPixel := 1, cupsColorSpace := 3,
            cupsPageSizeName := none, hwResolution := 600, mediaPosition := 0 },
         pbmAllocOk := true, lines := [some [0]], jbigInitAllocOk := true,
         chunks := [([9], true)] }]).1.getLast?
      = some OutTok.jobTrailer :=
  (c4_job_envelope "T" "U"
    [{ header :=
        { cupsWidth := 8, cupsHeight := 1, cupsBytesPerLine := 1,
          cupsBitsPerPixel := 1, cupsColorSpace := 3,
          cupsPageSizeName := none, hwResolution := 600, mediaPosition := 0 },
       pbmAllocOk := true, lines := [some [0]], jbigInitAllocOk := true,
       chunks := [([9], true)] }]).2.2 (by decide)

/-- Claim C5: the process exit status is 0 iff the input file opened, the
raster stream opened and at least one page was emitted; it is 1 when the
input could not be opened, the raster stream could not be opened, or zero
pages were emitted. -/
theorem c5_exit_status (io ro : Bool) (ts user : String)
    (pages : List PageInput) :
    (mainRun io ro ts user pages).2
      = if io = true ∧ ro = true
           ∧ 0 < countTok isPageHdrTok (mainRun io ro ts user pages).1
        then 0 else 1 := by
  cases io with
  | false => simp [mainRun]
  | true =>
    cases ro with
    | false => simp [mainRun]
    | true =>
      rw [mainRun_frames]
      have hm2 : (mainRun true true ts user pages).2
          = if 0 < (runPages ts user 0 pages).2 then 0 else 1 := rfl
      rw [hm2]
      by_cases h : 0 < (runPages ts user 0 pages).2 <;> simp [h]

end RicohFilter
